import Mathlib

/-!
Verification of the campaign-dashboard data pipeline (`src/app.py`).

The pipeline reads an uploaded CSV (trying utf-8 then latin-1, always with
pandas' default comma delimiter), strips and case-insensitively matches the
required headers `campaign`, `persona`, `resultado`, `previousy`, renames
them, drops rows with missing/blank persona, title-cases the kept persona
values, applies equality filters with the sentinel `Todas`, and computes
success / prior-contact counts and rates.

Cells are modelled as pandas scalars after the dataframe operations the app
performs: a cell is either null (NaN) or a string; `astype(str)` renders a
null as `"nan"`, matching pandas.
-/

namespace App

/-- A pandas cell as the app observes it: missing (NaN) or a string value.
Numeric source values appear here as their `astype(str)` rendering
(e.g. the integer `1` as `"1"`, the integer `3` as `"3"`). -/
inductive Cell where
  | null : Cell
  | str : String → Cell
deriving DecidableEq, Repr

/-- `astype(str)`: pandas renders NaN as the string `"nan"`. -/
def Cell.toStr : Cell → String
  | .null => "nan"
  | .str s => s

/-- `Series.notna()` on a scalar. -/
def Cell.notna : Cell → Bool
  | .null => false
  | .str _ => true

/-- Python `str.lower()` at the character-range level the app handles. -/
def lowerStr (s : String) : String := String.mk (s.data.map Char.toLower)

/-- Python `str.strip()`: drop leading and trailing whitespace. -/
def trimStr (s : String) : String :=
  String.mk (((s.data.dropWhile Char.isWhitespace).reverse.dropWhile Char.isWhitespace).reverse)

/-- Split a character list on a separator character; always at least one
(possibly empty) field, like Python's `str.split(sep)`. -/
def splitOnChar (sep : Char) (cs : List Char) : List (List Char) :=
  cs.foldr (fun c acc =>
    match acc with
    | [] => [[c]]
    | a :: as => if c = sep then [] :: a :: as else (c :: a) :: as) [[]]

/-- Parse a nonempty all-digit character list as a natural number. -/
def parseNat? (cs : List Char) : Option Nat :=
  if cs ≠ [] ∧ cs.all Char.isDigit then
    some (cs.foldl (fun n c => n * 10 + (c.toNat - 48)) 0)
  else none

/-- Parse an optionally-signed integer literal. -/
def parseInt? (s : String) : Option Int :=
  match s.data with
  | '-' :: rest => (parseNat? rest).map (fun n => -(n : Int))
  | cs => (parseNat? cs).map (fun n => (n : Int))

/-- A dataframe: a header row plus data rows of cells. -/
structure Table where
  headers : List String
  rows : List (List Cell)
deriving DecidableEq, Repr

/-- Position of a named column (first match, as `df[name]` resolves it). -/
def Table.colIdx (t : Table) (name : String) : Option Nat :=
  t.headers.indexOf? name

/-- The cell of row `r` in column `name` of `t`; null when absent,
like a NaN produced by reindexing. -/
def Table.cellAt (t : Table) (name : String) (r : List Cell) : Cell :=
  match t.colIdx name with
  | some i => r.getD i Cell.null
  | none => Cell.null

/-- The column `name` as a list of cells (`df[name]`). -/
def Table.col (t : Table) (name : String) : List Cell :=
  t.rows.map (t.cellAt name)

/-! ## Value canonicalization (app.py lines 110 and 113)

`sucessos = df['resultado'].astype(str).str.lower().isin(['sucesso', 'success']).sum()`
`previousy_sim = df['previousy'].astype(str).str.lower().isin(['sim', 'yes', '1', 'true']).sum()`
-/

/-- Per-row outcome flag: `astype(str).str.lower().isin(['sucesso', 'success'])`. -/
def outcomeBool (c : Cell) : Bool :=
  lowerStr c.toStr ∈ ["sucesso", "success"]

/-- Per-row prior-contact flag:
`astype(str).str.lower().isin(['sim', 'yes', '1', 'true'])`. -/
def priorBool (c : Cell) : Bool :=
  lowerStr c.toStr ∈ ["sim", "yes", "1", "true"]

/-- Success count over the filtered table (line 110). -/
def sucessos (t : Table) : Nat :=
  (t.col "resultado").countP outcomeBool

/-- Prior-contact count over the filtered table (line 113). -/
def previousy_sim (t : Table) : Nat :=
  (t.col "previousy").countP priorBool

/-- Spec-worded model of the claimed outcome rule, for comparison with
`outcomeBool`: true iff the raw value matches `{"sucesso","success","1"}`
case-insensitively or equals numeric 1. -/
def outcome_claim_model (c : Cell) : Bool :=
  lowerStr (trimStr c.toStr) ∈ ["sucesso", "success", "1"] ||
    (match parseInt? (trimStr c.toStr) with | some n => n == 1 | none => false)

/-- Spec-worded model of the claimed prior-contact rule, for comparison with
`priorBool`: true iff the raw value matches `{"sim","yes","1","true"}`
case-insensitively or is a positive number. -/
def prior_claim_model (c : Cell) : Bool :=
  lowerStr (trimStr c.toStr) ∈ ["sim", "yes", "1", "true"] ||
    (match parseInt? (trimStr c.toStr) with | some n => n > 0 | none => false)

/-! ## Title-casing (app.py line 78)

Python's `str.title()` for the character ranges the app handles: a letter is
uppercased when the preceding character is not a letter, lowercased
otherwise; non-letters pass through and reset the word boundary. -/

/-- One pass of title-casing over the characters; the flag records whether the
previous character was alphabetic. -/
def titleFold : List Char → Bool → List Char
  | [], _ => []
  | c :: cs, prevAlpha =>
    (if c.isAlpha then (if prevAlpha then c.toLower else c.toUpper) else c)
      :: titleFold cs c.isAlpha

/-- `str.title()`. -/
def strTitle (s : String) : String :=
  String.mk (titleFold s.data false)

/-! ## Schema normalizer (app.py lines 49-71) -/

/-- The required columns (line 55). -/
def required_cols : List String := ["campaign", "persona", "resultado", "previousy"]

/-- `df_lower_cols = {col.lower(): col for col in df.columns}` followed by a
lookup: the LAST header whose lowercasing equals `key`, because a Python dict
comprehension lets later entries overwrite earlier ones. -/
def lookupLower (hs : List String) (key : String) : Option String :=
  (hs.filter (fun h => lowerStr h == key)).getLast?

/-- The required columns that have no case-insensitive match (lines 59-63). -/
def missingCols (hs : List String) : List String :=
  required_cols.filter (fun r => (lookupLower hs r).isNone)

/-- `df.columns.str.strip()` (line 50). -/
def stripHeaders (t : Table) : Table :=
  { t with headers := t.headers.map trimStr }

/-- `df.rename(columns={v: k for k, v in col_map.items()})` applied to one
header: if some required column matched this header, the header becomes that
required name (line 71). -/
def renameHeader (hs : List String) (h : String) : String :=
  match (required_cols.filter (fun r => lookupLower hs r == some h)).head? with
  | some r => r
  | none => h

/-- Rename the matched headers to canonical names (line 71). -/
def renameTable (t : Table) : Table :=
  { t with headers := t.headers.map (renameHeader t.headers) }

/-- Lines 49-71: strip headers, find the required columns case-insensitively,
fail listing the missing ones (the app calls `st.stop()`), else rename. -/
def normalize (t : Table) : Except (List String) Table :=
  let ts := stripHeaders t
  let missing := missingCols ts.headers
  if missing.isEmpty then Except.ok (renameTable ts) else Except.error missing

/-! ## Value canonicalizer (app.py lines 74-78)

```
df_work = df_work[df_work['persona'].notna()]
df_work = df_work[df_work['persona'].astype(str).str.strip() != '']
df_work['persona'] = df_work['persona'].astype(str).str.title()
```
-/

/-- Keep a row iff its persona cell is non-null and does not strip to the
empty string (lines 74-75). -/
def personaKeep (t : Table) (r : List Cell) : Bool :=
  (t.cellAt "persona" r).notna && (trimStr (t.cellAt "persona" r).toStr != "")

/-- Lines 74-78: drop rows with missing/blank persona, then overwrite the
persona cell with the title-cased string cast of its value. Note the stored
value is NOT trimmed; only the keep-filter looks at the stripped form. -/
def canonicalize (t : Table) : Table :=
  let kept := t.rows.filter (personaKeep t)
  let rows :=
    match t.colIdx "persona" with
    | some i => kept.map (fun r => r.set i (Cell.str (strTitle ((r.getD i Cell.null).toStr))))
    | none => kept
  { t with rows := rows }

/-! ## Filter & aggregation (app.py lines 86-119) -/

/-- The sidebar selections; the literal `Todas` is the no-constraint
sentinel (lines 87 and 92). -/
structure Selection where
  campanha : String
  persona : String
deriving DecidableEq, Repr

/-- `df[df[name].astype(str) == v]`. -/
def filterEq (t : Table) (name v : String) : Table :=
  { t with rows := t.rows.filter (fun r => (t.cellAt name r).toStr == v) }

/-- Lines 98-102: apply the campaign filter unless the selection is `Todas`,
then the persona filter unless that selection is `Todas`. -/
def applyFilter (t : Table) (sel : Selection) : Table :=
  let t1 := if sel.campanha ≠ "Todas" then filterEq t "campaign" sel.campanha else t
  if sel.persona ≠ "Todas" then filterEq t1 "persona" sel.persona else t1

/-- `total_registros = len(df_filtrado)` (line 107). -/
def total_registros (t : Table) : Nat := t.rows.length

/-- Lines 109-117: success rate, exactly 0 when the table is empty. -/
def taxa_sucesso (t : Table) : ℚ :=
  if total_registros t > 0 then (sucessos t : ℚ) / (total_registros t : ℚ) * 100 else 0

/-- Lines 109-117: prior-contact rate, exactly 0 when the table is empty. -/
def taxa_previousy (t : Table) : ℚ :=
  if total_registros t > 0 then (previousy_sim t : ℚ) / (total_registros t : ℚ) * 100 else 0

/-- `personas_unicas = df_filtrado['persona'].nunique()` (line 119): distinct
non-null values. -/
def personas_unicas (t : Table) : Nat :=
  (((t.col "persona").filter Cell.notna).map Cell.toStr).dedup.length

/-- The pipeline from an uploaded (already parsed) table to the headline
metrics: normalization failure halts everything before aggregation. -/
def pipeline (t : Table) (sel : Selection) : Except (List String) (Nat × ℚ × ℚ × Nat) :=
  match normalize t with
  | Except.error ms => Except.error ms
  | Except.ok tn =>
    let tf := applyFilter (canonicalize tn) sel
    Except.ok (total_registros tf, taxa_sucesso tf, taxa_previousy tf, personas_unicas tf)

/-! ## File reading (app.py lines 22-27)

```
try:
    df = pd.read_csv(uploaded_file, encoding='utf-8')
except:
    uploaded_file.seek(0)
    df = pd.read_csv(uploaded_file, encoding='latin-1')
```

`pd.read_csv` is called with its default comma separator both times.
-/

/-- An uploaded file as raw bytes. -/
abbrev Bytes := List Nat

/-- latin-1: every byte maps to the character of its code point. -/
def decodeLatin1 (bs : Bytes) : String :=
  String.mk (bs.map (fun b => Char.ofNat (b % 256)))

/-- A UTF-8 continuation byte. -/
def isCont (b : Nat) : Bool := 0x80 ≤ b && b < 0xC0

/-- Decode one UTF-8 scalar from the front of the bytes, rejecting overlong
forms and surrogates as Python's utf-8 codec does. -/
def utf8DecodeOne : Bytes → Option (Char × Bytes)
  | [] => none
  | b :: rest =>
    if b < 0x80 then some (Char.ofNat b, rest)
    else if b < 0xC2 then none
    else if b < 0xE0 then
      match rest with
      | b1 :: rest2 =>
        if isCont b1 then some (Char.ofNat ((b - 0xC0) * 0x40 + (b1 - 0x80)), rest2)
        else none
      | [] => none
    else if b < 0xF0 then
      match rest with
      | b1 :: b2 :: rest3 =>
        if isCont b1 && isCont b2 && (b != 0xE0 || 0xA0 ≤ b1) && (b != 0xED || b1 < 0xA0) then
          some (Char.ofNat ((b - 0xE0) * 0x1000 + (b1 - 0x80) * 0x40 + (b2 - 0x80)), rest3)
        else none
      | _ => none
    else if b < 0xF5 then
      match rest with
      | b1 :: b2 :: b3 :: rest4 =>
        if isCont b1 && isCont b2 && isCont b3 &&
            (b != 0xF0 || 0x90 ≤ b1) && (b != 0xF4 || b1 < 0x90) then
          some (Char.ofNat ((b - 0xF0) * 0x40000 + (b1 - 0x80) * 0x1000 +
                  (b2 - 0x80) * 0x40 + (b3 - 0x80)), rest4)
        else none
      | _ => none
    else none

/-- Fuel-driven decoding loop; each step consumes at least one byte, so fuel
equal to the byte count is always enough. -/
def utf8DecodeAux : Nat → Bytes → Option (List Char)
  | _, [] => some []
  | 0, _ :: _ => none
  | Nat.succ fuel, b :: tl =>
    match utf8DecodeOne (b :: tl) with
    | none => none
    | some (c, rest) => (utf8DecodeAux fuel rest).map (fun cs => c :: cs)

/-- Decode a whole byte stream as UTF-8, failing on any invalid sequence. -/
def utf8Decode (bs : Bytes) : Option (List Char) :=
  utf8DecodeAux bs.length bs

/-- Comma (or other separator) parsing as `pd.read_csv` does at the level the
claims need: first non-empty line is the header, remaining non-empty lines are
rows, an empty field is a missing value (NaN); a file with no lines raises
(`EmptyDataError`), modelled as `none`. -/
def parseCsv (sep : Char) (content : String) : Option Table :=
  match ((splitOnChar '\n' content.data).map String.mk).filter (fun l => l ≠ "") with
  | [] => none
  | h :: rs =>
    some { headers := (splitOnChar sep h.data).map String.mk,
           rows := rs.map (fun l =>
             (splitOnChar sep l.data).map (fun f =>
               if f = [] then Cell.null else Cell.str (String.mk f))) }

/-- Lines 22-27: try utf-8 with the default comma separator; on ANY failure
(the `except:` is bare) retry latin-1, still with the comma separator. There
is no column-count check and no dedicated error. -/
def sniff_code (bs : Bytes) : Option Table :=
  match utf8Decode bs with
  | some cs =>
    match parseCsv ',' (String.mk cs) with
    | some t => some t
    | none => parseCsv ',' (decodeLatin1 bs)
  | none => parseCsv ',' (decodeLatin1 bs)

/-- The encodings named by the spec's sniffer. -/
inductive Enc where
  | utf8 | latin1 | iso8859 | cp1252
deriving DecidableEq, Repr

/-- Byte semantics for the spec model's encodings. The three single-byte
encodings are modelled as latin-1 (they agree on every byte the comparison
below exercises); utf-8 is the real decoder. -/
def decodeEnc : Enc → Bytes → Option String
  | Enc.utf8, bs => (utf8Decode bs).map String.mk
  | Enc.latin1, bs => some (decodeLatin1 bs)
  | Enc.iso8859, bs => some (decodeLatin1 bs)
  | Enc.cp1252, bs => some (decodeLatin1 bs)

/-- Modelled from the spec, for comparison with `sniff_code`: try the
delimiters `;`, `,`, TAB, `|` in order, crossed with the encodings utf-8,
latin-1, iso-8859-1, cp1252; accept the first pair yielding a table with
strictly more than one column; `none` is the claimed `UnparsableFile`. -/
def sniff_spec_model (bs : Bytes) : Option Table :=
  [';', ',', '\t', '|'].findSome? (fun sep =>
    [Enc.utf8, Enc.latin1, Enc.iso8859, Enc.cp1252].findSome? (fun e =>
      match decodeEnc e bs with
      | some s =>
        match parseCsv sep s with
        | some t => if t.headers.length > 1 then some t else none
        | none => none
      | none => none))

/-! ## Claim theorems -/

/-- A one-row table whose `resultado` value is the string rendering of 1. -/
def exResultadoOne : Table := { headers := ["resultado"], rows := [[Cell.str "1"]] }

/-- A one-row table whose `previousy` value is the string rendering of 3. -/
def exPreviousThree : Table := { headers := ["previousy"], rows := [[Cell.str "3"]] }

/-- C1 counterexample: the claim says a raw outcome value of `"1"` (or numeric
1, whose string cast is also `"1"`) counts as success, but the code's
vocabulary is only `{"sucesso","success"}`, so the row is not counted. -/
theorem outcome_one_not_success :
    outcome_claim_model (Cell.str "1") = true ∧
    outcomeBool (Cell.str "1") = false ∧
    sucessos exResultadoOne = 0 := by
  decide

/-- C1 amended: the outcome flag is true exactly when the lowercased string
cast of the raw value is `"sucesso"` or `"success"`; every other value,
including `"1"`, numeric 1 and missing (rendered `"nan"`), is false, never an
error; the success count is the number of rows whose flag holds. -/
theorem outcome_vocabulary_only (t : Table) :
    sucessos t = ((t.col "resultado").filter outcomeBool).length ∧
    (∀ c : Cell, outcomeBool c = true ↔
      (lowerStr c.toStr = "sucesso" ∨ lowerStr c.toStr = "success")) ∧
    outcomeBool Cell.null = false := by
  refine ⟨by simp [sucessos, List.countP_eq_length_filter], ?_, by decide⟩
  intro c
  simp [outcomeBool]

/-- C3 counterexample: the claim says a positive numeric value such as 3 makes
`prior_contact` true, but the code only matches the literal vocabulary
`{"sim","yes","1","true"}`, so the string cast `"3"` is not counted. -/
theorem prior_three_not_counted :
    prior_claim_model (Cell.str "3") = true ∧
    priorBool (Cell.str "3") = false ∧
    previousy_sim exPreviousThree = 0 := by
  decide

/-- C3 amended: the prior-contact flag is true exactly when the lowercased
string cast of the raw value is in `{"sim","yes","1","true"}`; positive
numbers other than the literal `1` (such as 3) and missing values are false,
never an error; the prior-contact count is the number of rows whose flag
holds. -/
theorem prior_vocabulary_only (t : Table) :
    previousy_sim t = ((t.col "previousy").filter priorBool).length ∧
    (∀ c : Cell, priorBool c = true ↔
      (lowerStr c.toStr = "sim" ∨ lowerStr c.toStr = "yes" ∨
       lowerStr c.toStr = "1" ∨ lowerStr c.toStr = "true")) ∧
    priorBool Cell.null = false ∧ priorBool (Cell.str "1") = true := by
  refine ⟨by simp [previousy_sim, List.countP_eq_length_filter], ?_, by decide, by decide⟩
  intro c
  simp [priorBool]

theorem utf8DecodeOne_ascii {b : Nat} (hb : b < 0x80) (tl : Bytes) :
    utf8DecodeOne (b :: tl) = some (Char.ofNat b, tl) := by
  simp [utf8DecodeOne, hb]

theorem utf8DecodeAux_ascii (fuel : Nat) (bs : Bytes) (hf : bs.length ≤ fuel)
    (h : ∀ b ∈ bs, b < 0x80) :
    utf8DecodeAux fuel bs = some (bs.map Char.ofNat) := by
  induction fuel generalizing bs with
  | zero =>
    cases bs with
    | nil => rfl
    | cons b tl => simp at hf
  | succ n ih =>
    cases bs with
    | nil => rfl
    | cons b tl =>
      have hb : b < 0x80 := h b (by simp)
      rw [show utf8DecodeAux (n + 1) (b :: tl) =
            (match utf8DecodeOne (b :: tl) with
             | none => none
             | some (c, rest) => (utf8DecodeAux n rest).map (fun cs => c :: cs)) from rfl]
      rw [utf8DecodeOne_ascii hb]
      show Option.map (fun cs => Char.ofNat b :: cs) (utf8DecodeAux n tl) =
        some (List.map Char.ofNat (b :: tl))
      rw [ih tl (by simpa using hf) (fun x hx => h x (by simp [hx]))]
      simp

theorem utf8Decode_ascii (bs : Bytes) (h : ∀ b ∈ bs, b < 0x80) :
    utf8Decode bs = some (bs.map Char.ofNat) :=
  utf8DecodeAux_ascii bs.length bs (Nat.le_refl _) h

theorem decodeLatin1_ascii (bs : Bytes) (h : ∀ b ∈ bs, b < 0x80) :
    decodeLatin1 bs = String.mk (bs.map Char.ofNat) := by
  unfold decodeLatin1
  congr 1
  apply List.map_congr_left
  intro b hb
  have hlt := h b hb
  rw [Nat.mod_eq_of_lt (by omega)]

/-- C2 counterexample: on the single-column file `"a\nb"` the claimed sniffer
fails with `UnparsableFile` (no delimiter yields more than one column), yet
the code accepts the one-column table; on the semicolon file `"a;b\nc;d"` the
claimed sniffer returns a two-column table split on `;`, yet the code
returns a one-column table with the semicolons left inside the fields. -/
theorem sniffer_claim_refuted :
    sniff_code [97, 10, 98] = some { headers := ["a"], rows := [[Cell.str "b"]] } ∧
    sniff_spec_model [97, 10, 98] = none ∧
    sniff_spec_model [97, 59, 98, 10, 99, 59, 100] =
      some { headers := ["a", "b"], rows := [[Cell.str "c", Cell.str "d"]] } ∧
    sniff_code [97, 59, 98, 10, 99, 59, 100] =
      some { headers := ["a;b"], rows := [[Cell.str "c;d"]] } := by
  decide

/-- C2 amended: the reader only ever parses with the comma delimiter, trying
utf-8 and then latin-1; it performs no column-count check, so on any ASCII
file its result is exactly comma-parsing of the decoded content — a
single-column parse is accepted and `;`, TAB and `|` are never tried. -/
theorem sniff_code_comma_only (bs : Bytes) (h : ∀ b ∈ bs, b < 0x80) :
    sniff_code bs = parseCsv ',' (decodeLatin1 bs) := by
  unfold sniff_code
  rw [utf8Decode_ascii bs h]
  show (match parseCsv ',' (String.mk (bs.map Char.ofNat)) with
        | some t => some t
        | none => parseCsv ',' (decodeLatin1 bs)) = parseCsv ',' (decodeLatin1 bs)
  rw [← decodeLatin1_ascii bs h]
  cases hp : parseCsv ',' (decodeLatin1 bs) <;> simp [hp]

theorem sniff_code_comma_only_witness :
    (∀ b ∈ ([97, 10, 98] : Bytes), b < 0x80) ∧
    sniff_code [97, 10, 98] = parseCsv ',' (decodeLatin1 [97, 10, 98]) :=
  ⟨by decide, sniff_code_comma_only [97, 10, 98] (by decide)⟩

theorem lookupLower_isNone_iff (hs : List String) (key : String) :
    (lookupLower hs key).isNone = true ↔ ∀ h ∈ hs, lowerStr h ≠ key := by
  simp [lookupLower, Option.isNone_iff_eq_none, List.getLast?_eq_none_iff,
    List.filter_eq_nil_iff]

theorem missingCols_characterization (hs : List String) :
    missingCols hs = required_cols.filter (fun r => decide (∀ h ∈ hs, lowerStr h ≠ r)) := by
  unfold missingCols
  apply List.filter_congr
  intro r _
  rw [Bool.eq_iff_iff, decide_eq_true_iff]
  exact lookupLower_isNone_iff hs r

/-- A table none of whose headers matches any required column. -/
def exNoCols : Table := { headers := ["foo", "bar"], rows := [[Cell.str "x", Cell.str "y"]] }

/-- C4: after trimming headers and matching case-insensitively, the pipeline
fails with an error listing exactly the required fields that have no matching
header — and the failure propagates so no aggregation is computed; when every
required field resolves, the matched columns are renamed to the canonical
identifiers. -/
theorem missing_columns_behavior (t : Table) (sel : Selection) :
    (missingCols (t.headers.map trimStr) ≠ [] →
      normalize t = Except.error (missingCols (t.headers.map trimStr)) ∧
      pipeline t sel = Except.error (missingCols (t.headers.map trimStr))) ∧
    (missingCols (t.headers.map trimStr) = [] →
      normalize t = Except.ok (renameTable (stripHeaders t))) ∧
    missingCols (t.headers.map trimStr) =
      required_cols.filter (fun r => decide (∀ h ∈ t.headers, lowerStr (trimStr h) ≠ r)) := by
  refine ⟨?_, ?_, ?_⟩
  · intro hne
    have h1 : normalize t = Except.error (missingCols (t.headers.map trimStr)) := by
      unfold normalize
      simp only [stripHeaders]
      rw [if_neg (by simpa [List.isEmpty_iff] using hne)]
    refine ⟨h1, ?_⟩
    unfold pipeline
    rw [h1]
  · intro he
    unfold normalize
    simp only [stripHeaders]
    rw [if_pos (by simpa [List.isEmpty_iff] using he)]
  · rw [missingCols_characterization]
    apply List.filter_congr
    intro r _
    rw [decide_eq_decide]
    constructor
    · intro hall h hh
      exact hall (trimStr h) (List.mem_map_of_mem _ hh)
    · intro hall h hh
      rcases List.mem_map.mp hh with ⟨h0, hh0, rfl⟩
      exact hall h0 hh0

theorem missing_columns_behavior_witness :
    normalize exNoCols = Except.error ["campaign", "persona", "resultado", "previousy"] ∧
    pipeline exNoCols { campanha := "Todas", persona := "Todas" } =
      Except.error ["campaign", "persona", "resultado", "previousy"] := by
  have h := (missing_columns_behavior exNoCols { campanha := "Todas", persona := "Todas" }).1
    (by decide)
  have he : missingCols (exNoCols.headers.map trimStr) =
      ["campaign", "persona", "resultado", "previousy"] := by decide
  rw [he] at h
  exact h

theorem titleFold_length (cs : List Char) (b : Bool) : (titleFold cs b).length = cs.length := by
  induction cs generalizing b with
  | nil => rfl
  | cons c tl ih => simp [titleFold, ih]

theorem strTitle_ne_empty {s : String} (h : s ≠ "") : strTitle s ≠ "" := by
  intro hc
  apply h
  have hlen : (titleFold s.data false).length = 0 := by
    rw [show titleFold s.data false = (strTitle s).data from rfl, hc]
    rfl
  rw [titleFold_length] at hlen
  apply String.ext
  simpa using List.length_eq_zero.mp hlen

theorem trimStr_empty : trimStr "" = "" := rfl

theorem personaKeep_cell {t : Table} {r : List Cell} (hk : personaKeep t r = true) :
    (t.cellAt "persona" r).notna = true ∧ trimStr (t.cellAt "persona" r).toStr ≠ "" := by
  unfold personaKeep at hk
  rcases Bool.and_eq_true_iff.mp hk with ⟨h1, h2⟩
  refine ⟨h1, ?_⟩
  simpa using h2

theorem personaKeep_lt {t : Table} {r : List Cell} {i : Nat}
    (hidx : t.colIdx "persona" = some i) (hk : personaKeep t r = true) : i < r.length := by
  rcases personaKeep_cell hk with ⟨h1, _⟩
  by_contra hge
  push_neg at hge
  have hcell : t.cellAt "persona" r = Cell.null := by
    unfold Table.cellAt
    rw [hidx]
    simp [List.getElem?_eq_none hge]
  rw [hcell] at h1
  exact absurd h1 (by decide)

theorem canonicalize_col_persona (t : Table) (i : Nat) (hidx : t.colIdx "persona" = some i) :
    (canonicalize t).col "persona" =
      (t.rows.filter (personaKeep t)).map
        (fun r => Cell.str (strTitle ((r.getD i Cell.null).toStr))) := by
  have hrows : (canonicalize t).rows =
      (t.rows.filter (personaKeep t)).map
        (fun r => r.set i (Cell.str (strTitle ((r.getD i Cell.null).toStr)))) := by
    unfold canonicalize
    rw [hidx]
  have hcol : (canonicalize t).col "persona" =
      (canonicalize t).rows.map (t.cellAt "persona") := rfl
  rw [hcol, hrows, List.map_map]
  apply List.map_congr_left
  intro r hr
  have hk : personaKeep t r = true := (List.mem_filter.mp hr).2
  have hlt : i < r.length := personaKeep_lt hidx hk
  show t.cellAt "persona" (r.set i (Cell.str (strTitle ((r.getD i Cell.null).toStr)))) = _
  unfold Table.cellAt
  rw [hidx]
  simp [List.getElem?_set_self (by simpa using hlt)]

theorem canonicalize_col_persona_none (t : Table) (hidx : t.colIdx "persona" = none) :
    (canonicalize t).col "persona" = [] := by
  have hkeep : ∀ r, personaKeep t r = false := by
    intro r
    unfold personaKeep Table.cellAt
    rw [hidx]
    rfl
  have hrows : (canonicalize t).rows = [] := by
    unfold canonicalize
    rw [hidx]
    simp [hkeep]
  show (canonicalize t).rows.map _ = []
  rw [hrows]
  rfl

/-- C5: in the canonical table every persona cell is a non-null, non-empty
string — rows whose original persona was null or blank (including
whitespace-only) have been removed entirely. -/
theorem persona_never_blank (t : Table) :
    ((canonicalize t).col "persona").all (fun c => c.notna && (c.toStr != "")) = true := by
  rw [List.all_eq_true]
  intro c hc
  rcases hidx : t.colIdx "persona" with _ | i
  · rw [canonicalize_col_persona_none t hidx] at hc
    simp at hc
  · rw [canonicalize_col_persona t i hidx] at hc
    rcases List.mem_map.mp hc with ⟨r, hr, rfl⟩
    have hk : personaKeep t r = true := (List.mem_filter.mp hr).2
    rcases personaKeep_cell hk with ⟨_, h2⟩
    have hcell : t.cellAt "persona" r = r.getD i Cell.null := by
      unfold Table.cellAt
      rw [hidx]
    rw [hcell] at h2
    have hne : (r.getD i Cell.null).toStr ≠ "" := by
      intro h0
      exact h2 (by rw [h0]; rfl)
    simp only [Cell.notna, Cell.toStr, Bool.true_and, bne_iff_ne, ne_eq]
    exact strTitle_ne_empty hne

theorem count_le_total (t : Table) (name : String) (p : Cell → Bool) :
    (t.col name).countP p ≤ total_registros t := by
  calc (t.col name).countP p ≤ (t.col name).length := List.countP_le_length p
  _ = t.rows.length := by simp [Table.col]

theorem taxa_nonneg_le (s n : Nat) (hs : s ≤ n) :
    0 ≤ (if 0 < n then (s : ℚ) / (n : ℚ) * 100 else 0) ∧
    (if 0 < n then (s : ℚ) / (n : ℚ) * 100 else 0) ≤ 100 := by
  split
  case isTrue h =>
    have h1 : (s : ℚ) / (n : ℚ) ≤ 1 :=
      div_le_one_of_le₀ (by exact_mod_cast hs) (by positivity)
    constructor
    · positivity
    · calc (s : ℚ) / (n : ℚ) * 100 ≤ 1 * 100 :=
        mul_le_mul_of_nonneg_right h1 (by norm_num)
      _ = 100 := by norm_num
  case isFalse h => norm_num

/-- An empty canonical table, used to witness the `total == 0` branch. -/
def exEmptyTable : Table := { headers := ["campaign", "persona", "resultado", "previousy"], rows := [] }

/-- C6: for every filter selection, the success and prior-contact counts never
exceed the row total, both rates lie in [0, 100], and when the filtered total
is 0 both rates are exactly 0 — the `total > 0` guard means no division by
zero ever occurs. -/
theorem rates_bounded (t : Table) (sel : Selection) :
    sucessos (applyFilter t sel) ≤ total_registros (applyFilter t sel) ∧
    previousy_sim (applyFilter t sel) ≤ total_registros (applyFilter t sel) ∧
    0 ≤ taxa_sucesso (applyFilter t sel) ∧ taxa_sucesso (applyFilter t sel) ≤ 100 ∧
    0 ≤ taxa_previousy (applyFilter t sel) ∧ taxa_previousy (applyFilter t sel) ≤ 100 ∧
    (total_registros (applyFilter t sel) = 0 →
      taxa_sucesso (applyFilter t sel) = 0 ∧ taxa_previousy (applyFilter t sel) = 0) := by
  have hs := count_le_total (applyFilter t sel) "resultado" outcomeBool
  have hp := count_le_total (applyFilter t sel) "previousy" priorBool
  have h1 := taxa_nonneg_le (sucessos (applyFilter t sel)) (total_registros (applyFilter t sel)) hs
  have h2 := taxa_nonneg_le (previousy_sim (applyFilter t sel)) (total_registros (applyFilter t sel)) hp
  refine ⟨hs, hp, h1.1, h1.2, h2.1, h2.2, ?_⟩
  intro h0
  unfold taxa_sucesso taxa_previousy
  rw [h0]
  norm_num

theorem rates_bounded_witness :
    taxa_sucesso (applyFilter exEmptyTable { campanha := "Todas", persona := "Todas" }) = 0 ∧
    taxa_previousy (applyFilter exEmptyTable { campanha := "Todas", persona := "Todas" }) = 0 :=
  (rates_bounded exEmptyTable { campanha := "Todas", persona := "Todas" }).2.2.2.2.2.2 (by decide)

/-- C7: selecting `Todas` for both filters returns the canonical table
unchanged; in general the two equality filters are independent and
conjunctive, keeping only rows whose string-cast cell equals the selected
value exactly, and the headers are untouched. -/
theorem filter_todas_roundtrip (t : Table) (sel : Selection) :
    applyFilter t { campanha := "Todas", persona := "Todas" } = t ∧
    (applyFilter t sel).headers = t.headers ∧
    (applyFilter t sel).rows = t.rows.filter (fun r =>
      (sel.campanha == "Todas" || ((t.cellAt "campaign" r).toStr == sel.campanha)) &&
      (sel.persona == "Todas" || ((t.cellAt "persona" r).toStr == sel.persona))) := by
  refine ⟨by simp [applyFilter], ?_, ?_⟩
  · unfold applyFilter filterEq
    split <;> split <;> rfl
  · unfold applyFilter
    by_cases hc : sel.campanha = "Todas" <;> by_cases hp : sel.persona = "Todas"
    · simp [filterEq, hc, hp, Table.cellAt, Table.colIdx]
    · have hp' : (sel.persona == "Todas") = false := beq_eq_false_iff_ne.mpr hp
      simp [filterEq, hc, hp, hp', Table.cellAt, Table.colIdx]
    · have hc' : (sel.campanha == "Todas") = false := beq_eq_false_iff_ne.mpr hc
      simp [filterEq, hc, hp, hc', Table.cellAt, Table.colIdx]
    · have hp' : (sel.persona == "Todas") = false := beq_eq_false_iff_ne.mpr hp
      have hc' : (sel.campanha == "Todas") = false := beq_eq_false_iff_ne.mpr hc
      simp [filterEq, hc, hp, hc', hp', Table.cellAt, Table.colIdx, Bool.and_comm]

/-- A table holding a record whose campaign value is literally `Todas`
alongside a record with a different campaign and the same persona. -/
def exTodas : Table :=
  { headers := ["campaign", "persona"],
    rows := [[Cell.str "Todas", Cell.str "P"], [Cell.str "X", Cell.str "P"]] }

/-- A table holding a record whose persona value is literally `Todas`
alongside a record with a different persona and the same campaign. -/
def exTodasPersona : Table :=
  { headers := ["campaign", "persona"],
    rows := [[Cell.str "C", Cell.str "Todas"], [Cell.str "C", Cell.str "Q"]] }

/-- C9: the literal string `Todas` is the no-constraint sentinel for both
filters — selecting it for campaign (resp. persona) applies no campaign
(resp. persona) filter at all, whatever the other selection is; consequently
a record whose campaign value is exactly `Todas` can never be isolated by the
equality filter from a record with the same persona, and a record whose
persona value is exactly `Todas` can never be isolated from a record with the
same campaign: every selection keeping the former also keeps the latter. -/
theorem todas_sentinel (t : Table) (sel : Selection) (c p : String) (r1 r2 : List Cell) :
    (applyFilter t { campanha := "Todas", persona := p } =
      (if p ≠ "Todas" then filterEq t "persona" p else t)) ∧
    (applyFilter t { campanha := c, persona := "Todas" } =
      (if c ≠ "Todas" then filterEq t "campaign" c else t)) ∧
    (r2 ∈ t.rows →
     (t.cellAt "campaign" r1).toStr = "Todas" →
     (t.cellAt "persona" r1).toStr = (t.cellAt "persona" r2).toStr →
     r1 ∈ (applyFilter t sel).rows → r2 ∈ (applyFilter t sel).rows) ∧
    (r2 ∈ t.rows →
     (t.cellAt "persona" r1).toStr = "Todas" →
     (t.cellAt "campaign" r1).toStr = (t.cellAt "campaign" r2).toStr →
     r1 ∈ (applyFilter t sel).rows → r2 ∈ (applyFilter t sel).rows) := by
  refine ⟨by simp [applyFilter], by simp [applyFilter], ?_, ?_⟩
  · intro h2 hcamp hpers hmem
    unfold applyFilter at hmem ⊢
    by_cases hc : sel.campanha = "Todas"
    · rw [if_neg (not_not_intro hc)] at hmem ⊢
      by_cases hp : sel.persona = "Todas"
      · rw [if_neg (not_not_intro hp)] at hmem ⊢
        exact h2
      · rw [if_pos hp] at hmem ⊢
        unfold filterEq at hmem ⊢
        simp only [List.mem_filter] at hmem ⊢
        refine ⟨h2, ?_⟩
        rw [← hpers]
        exact hmem.2
    · exfalso
      rw [if_pos hc] at hmem
      have hr1 : r1 ∈ (filterEq t "campaign" sel.campanha).rows := by
        by_cases hp : sel.persona = "Todas"
        · rw [if_neg (not_not_intro hp)] at hmem
          exact hmem
        · rw [if_pos hp] at hmem
          unfold filterEq at hmem
          exact (List.mem_filter.mp hmem).1
      unfold filterEq at hr1
      have hpred := (List.mem_filter.mp hr1).2
      have heq : (t.cellAt "campaign" r1).toStr = sel.campanha := eq_of_beq hpred
      exact hc (by rw [← heq, hcamp])
  · intro h2 hpers hcamp hmem
    unfold applyFilter at hmem ⊢
    by_cases hp : sel.persona = "Todas"
    · rw [if_neg (not_not_intro hp)] at hmem ⊢
      by_cases hc : sel.campanha = "Todas"
      · rw [if_neg (not_not_intro hc)] at hmem ⊢
        exact h2
      · rw [if_pos hc] at hmem ⊢
        unfold filterEq at hmem ⊢
        simp only [List.mem_filter] at hmem ⊢
        refine ⟨h2, ?_⟩
        rw [← hcamp]
        exact hmem.2
    · exfalso
      rw [if_pos hp] at hmem
      by_cases hc : sel.campanha = "Todas"
      · rw [if_neg (not_not_intro hc)] at hmem
        unfold filterEq at hmem
        have hpred := (List.mem_filter.mp hmem).2
        have heq : (t.cellAt "persona" r1).toStr = sel.persona := eq_of_beq hpred
        exact hp (by rw [← heq, hpers])
      · rw [if_pos hc] at hmem
        unfold filterEq at hmem
        have hpred := (List.mem_filter.mp hmem).2
        have heq : (t.cellAt "persona" r1).toStr = sel.persona := eq_of_beq hpred
        exact hp (by rw [← heq, hpers])

theorem todas_sentinel_witness :
    ([Cell.str "X", Cell.str "P"] ∈
      (applyFilter exTodas { campanha := "Todas", persona := "Todas" }).rows) ∧
    ([Cell.str "C", Cell.str "Q"] ∈
      (applyFilter exTodasPersona { campanha := "Todas", persona := "Todas" }).rows) :=
  ⟨(todas_sentinel exTodas { campanha := "Todas", persona := "Todas" } "X" "P"
      [Cell.str "Todas", Cell.str "P"] [Cell.str "X", Cell.str "P"]).2.2.1
      (by decide) (by decide) (by decide) (by decide),
   (todas_sentinel exTodasPersona { campanha := "Todas", persona := "Todas" } "C" "Q"
      [Cell.str "C", Cell.str "Todas"] [Cell.str "C", Cell.str "Q"]).2.2.2
      (by decide) (by decide) (by decide) (by decide)⟩

theorem uint32_le_iff {a b : UInt32} : a ≤ b ↔ a.toNat ≤ b.toNat := Iff.rfl

theorem char_eq_of_toNat_eq {c1 c2 : Char} (h : c1.toNat = c2.toNat) : c1 = c2 := by
  have h2 := congrArg Char.ofNat h
  rwa [Char.ofNat_toNat, Char.ofNat_toNat] at h2

theorem toNat_ofNat_valid {n : Nat} (h : n < 55296) : (Char.ofNat n).toNat = n := by
  unfold Char.ofNat
  rw [dif_pos (Or.inl h)]
  rfl

theorem toLower_toNat (c : Char) :
    c.toLower.toNat = if c.toNat ≥ 65 ∧ c.toNat ≤ 90 then c.toNat + 32 else c.toNat := by
  unfold Char.toLower
  by_cases h : c.toNat ≥ 65 ∧ c.toNat ≤ 90
  · rw [if_pos h, if_pos h, toNat_ofNat_valid (by omega)]
  · rw [if_neg h, if_neg h]

theorem toUpper_toNat (c : Char) :
    c.toUpper.toNat = if c.toNat ≥ 97 ∧ c.toNat ≤ 122 then c.toNat - 32 else c.toNat := by
  unfold Char.toUpper
  by_cases h : c.toNat ≥ 97 ∧ c.toNat ≤ 122
  · rw [if_pos h, if_pos h, toNat_ofNat_valid (by omega)]
  · rw [if_neg h, if_neg h]

theorem isAlpha_toNat (c : Char) :
    c.isAlpha = decide ((65 ≤ c.toNat ∧ c.toNat ≤ 90) ∨ (97 ≤ c.toNat ∧ c.toNat ≤ 122)) := by
  have h65 : ((65 : UInt32) ≤ c.val) ↔ 65 ≤ c.toNat := uint32_le_iff
  have h90 : (c.val ≤ (90 : UInt32)) ↔ c.toNat ≤ 90 := uint32_le_iff
  have h97 : ((97 : UInt32) ≤ c.val) ↔ 97 ≤ c.toNat := uint32_le_iff
  have h122 : (c.val ≤ (122 : UInt32)) ↔ c.toNat ≤ 122 := uint32_le_iff
  unfold Char.isAlpha Char.isUpper Char.isLower
  rw [Bool.eq_iff_iff]
  simp only [ge_iff_le, Bool.or_eq_true, Bool.and_eq_true, decide_eq_true_eq]
  rw [h65, h90, h97, h122]

theorem toLower_eq_imp {c1 c2 : Char} (h : c1.toLower = c2.toLower) :
    c1.toUpper = c2.toUpper ∧ c1.isAlpha = c2.isAlpha := by
  have hn : c1.toLower.toNat = c2.toLower.toNat := by rw [h]
  rw [toLower_toNat, toLower_toNat] at hn
  constructor
  · apply char_eq_of_toNat_eq
    rw [toUpper_toNat, toUpper_toNat]
    split_ifs at hn ⊢ <;> omega
  · rw [isAlpha_toNat, isAlpha_toNat, decide_eq_decide]
    split_ifs at hn <;> omega

theorem toLower_eq_self_of_not_alpha {c : Char} (h : c.isAlpha = false) : c.toLower = c := by
  apply char_eq_of_toNat_eq
  rw [toLower_toNat]
  rw [isAlpha_toNat, decide_eq_false_iff_not] at h
  rw [if_neg (by omega)]

theorem titleFold_congr (l1 : List Char) : ∀ (l2 : List Char) (b : Bool),
    l1.map Char.toLower = l2.map Char.toLower → titleFold l1 b = titleFold l2 b := by
  induction l1 with
  | nil =>
    intro l2 b h
    cases l2 with
    | nil => rfl
    | cons c t => simp at h
  | cons c1 t1 ih =>
    intro l2 b h
    cases l2 with
    | nil => simp at h
    | cons c2 t2 =>
      simp only [List.map_cons, List.cons.injEq] at h
      rcases h with ⟨hc, ht⟩
      rcases toLower_eq_imp hc with ⟨hu, ha⟩
      unfold titleFold
      rw [ha, ih t2 c2.isAlpha ht]
      congr 1
      by_cases hA : c2.isAlpha = true
      · rw [if_pos hA, if_pos hA]
        cases b with
        | true => simpa using hc
        | false => simpa using hu
      · rw [if_neg hA, if_neg hA]
        rw [Bool.not_eq_true] at hA
        calc c1 = c1.toLower := (toLower_eq_self_of_not_alpha (ha ▸ hA)).symm
        _ = c2.toLower := hc
        _ = c2 := toLower_eq_self_of_not_alpha hA

theorem strTitle_congr {s1 s2 : String} (h : lowerStr s1 = lowerStr s2) :
    strTitle s1 = strTitle s2 := by
  unfold strTitle
  have hl : s1.data.map Char.toLower = s2.data.map Char.toLower := by
    have h2 := congrArg String.data h
    simpa [lowerStr] using h2
  rw [titleFold_congr s1.data s2.data false hl]

/-- A normalized table whose single persona value carries surrounding
whitespace (but is not whitespace-only, so the row is kept). -/
def exSpacedPersona : Table := { headers := ["persona"], rows := [[Cell.str " x "]] }

/-- C8 counterexample: the raw persona `" x "` survives canonicalization as
`" X "` — title-cased but NOT trimmed, so a canonical persona can carry
leading and trailing whitespace, contradicting the claim. -/
theorem persona_not_trimmed :
    (canonicalize exSpacedPersona).col "persona" = [Cell.str " X "] ∧
    trimStr " X " ≠ " X " := by
  decide

/-- C8 amended: every persona value stored in the canonical table is the
title-cased string cast of the raw value, with surrounding whitespace
preserved — trimming is applied only to decide which rows are dropped, never
to the stored value (e.g. `" x "` is stored as `" X "`). -/
theorem persona_stored_title_cast (t : Table) (i : Nat)
    (hidx : t.colIdx "persona" = some i) :
    (canonicalize t).col "persona" =
      (t.rows.filter (personaKeep t)).map
        (fun r => Cell.str (strTitle ((r.getD i Cell.null).toStr))) ∧
    strTitle " x " = " X " :=
  ⟨canonicalize_col_persona t i hidx, by decide⟩

theorem persona_stored_title_cast_witness :
    (canonicalize exSpacedPersona).col "persona" =
      (exSpacedPersona.rows.filter (personaKeep exSpacedPersona)).map
        (fun r => Cell.str (strTitle ((r.getD 0 Cell.null).toStr))) :=
  (persona_stored_title_cast exSpacedPersona 0 (by decide)).1

/-- A normalized table with two personas differing only in letter case. -/
def exCasePersonas : Table :=
  { headers := ["persona"], rows := [[Cell.str "buyer"], [Cell.str "BUYER"]] }

/-- C10: canonicalization rewrites every kept persona with title-casing, so
persona strings differing only in letter case become the same value before
distinct counting: any two strings with equal lowercasings title-case
identically, `"buyer"` and `"BUYER"` both become `"Buyer"`, and the
distinct-persona count of the two-row example collapses from 2 to 1. -/
theorem title_case_merges (s1 s2 : String) (h : lowerStr s1 = lowerStr s2) :
    strTitle s1 = strTitle s2 ∧
    strTitle "buyer" = "Buyer" ∧ strTitle "BUYER" = "Buyer" ∧
    (canonicalize exCasePersonas).col "persona" = [Cell.str "Buyer", Cell.str "Buyer"] ∧
    personas_unicas (canonicalize exCasePersonas) = 1 ∧
    personas_unicas exCasePersonas = 2 :=
  ⟨strTitle_congr h, by decide, by decide, by decide, by decide, by decide⟩

theorem title_case_merges_witness :
    lowerStr "buyer" = lowerStr "BUYER" ∧ strTitle "buyer" = strTitle "BUYER" :=
  ⟨by decide, (title_case_merges "buyer" "BUYER" (by decide)).1⟩

end App
